import Mathlib

/-!
Verification of the clickhouse-srv connection/session engine against its
specification.  The repository's visible source is `src/src/lib.rs`: the
`ClickHouseSession` trait, the `QueryState` / `CHContext` session model and
the `ClickHouseServer::run` connection loop.  The `binary`, `protocols`,
`connection` and `cmd` modules are declared there but their files are not
part of the visible source; where a property depends on them they are
modelled from the specification, and each such definition says so in its
doc comment.
-/

namespace ClickHouse

/-- Embeds `QueryState` (src/src/lib.rs lines 70-82).  Rust `u64` fields are
modelled as `Nat`; none of the visible code performs arithmetic on them, so
no overflow reduction arises. -/
structure QueryState where
  query_id : String
  stage : Nat
  compression : Nat
  query : String
  is_cancelled : Bool
  is_connection_closed : Bool
  is_empty : Bool
  sent_all_data : Bool
deriving DecidableEq, Repr

/-- The `#[derive(Default)]` value of `QueryState`: empty strings, zero
integers, false booleans. -/
def QueryState.defaultState : QueryState :=
  { query_id := ""
    stage := 0
    compression := 0
    query := ""
    is_cancelled := false
    is_connection_closed := false
    is_empty := false
    sent_all_data := false }

/-- Embeds `QueryState::reset` (src/src/lib.rs lines 84-92).  The Rust method
mutates in place; here it returns the updated record.  It assigns exactly the
five fields the source assigns. -/
def QueryState.reset (s : QueryState) : QueryState :=
  { s with
    stage := 0
    is_cancelled := false
    is_connection_closed := false
    is_empty := false
    sent_all_data := false }

/-- Modelled from the spec: `HelloRequest` lives in the `protocols` module,
which is absent from the visible source.  Section 3 of the spec lists its
fields: client-declared name, version triple, declared protocol revision,
default database/user/password. -/
structure HelloRequest where
  client_name : String
  version_major : Nat
  version_minor : Nat
  revision : Nat
  database : String
  user : String
  password : String
deriving DecidableEq, Repr

/-- Embeds `CHContext` (src/src/lib.rs lines 94-100). -/
structure CHContext where
  state : QueryState
  client_revision : Nat
  hello : Option HelloRequest
deriving DecidableEq, Repr

/-- Embeds `CHContext::new` (src/src/lib.rs lines 102-106). -/
def CHContext.new (state : QueryState) : CHContext :=
  { state := state, client_revision := 0, hello := none }

/-- Embeds the configurable surface of the `ClickHouseSession` trait
(src/src/lib.rs lines 28-68) as a record of values; the async
`execute_query` callback is treated abstractly by the loop model below.
Each field corresponds to one trait method with a default body. -/
structure ClickHouseSession where
  dbms_name : String
  dbms_version_major : Nat
  dbms_version_minor : Nat
  dbms_tcp_protocol_version : Nat
  timezone : String
  server_display_name : String
  dbms_version_patch : Nat
deriving DecidableEq, Repr

/-- The default method bodies of the `ClickHouseSession` trait: a backend
that overrides nothing observes exactly these values (src/src/lib.rs lines
36-63).  In particular `dbms_tcp_protocol_version` defaults to the concrete
value `54428`, even though the comment above it (line 40) says "None is by
default, which will use same version as client send": the method returns a
plain `u64`, so no backend can express an unset version. -/
def defaultSession : ClickHouseSession :=
  { dbms_name := "clickhouse-server"
    dbms_version_major := 19
    dbms_version_minor := 17
    dbms_tcp_protocol_version := 54428
    timezone := "UTC"
    server_display_name := "clickhouse-server"
    dbms_version_patch := 1 }

/-- Modelled from the spec: the Hello-response writer lives in the
`protocols`/`connection` modules, absent from the visible source.  The spec
(section 4.3) says the backend's configured tcp protocol revision is sent
when a version is declared; the `ClickHouseSession` trait offers only the
total `u64` method `dbms_tcp_protocol_version`, so the writer can only send
that value, whatever the client declared. -/
def reportedServerRevision (session : ClickHouseSession)
    (clientRevision : Nat) : Nat :=
  session.dbms_tcp_protocol_version

/-- The errors the connection loop can propagate.  `timezoneParse` stands
for the chrono-tz parse failure converted by `?` at src/src/lib.rs line 130;
the remaining constructors stand for the error values produced by
`Connection::read_packet` and `Cmd::apply` (spec section 7 taxonomy). -/
inductive Err where
  | timezoneParse
  | malformedPacket
  | protocolLimitExceeded
  | unsupportedType
  | corruptedCompressedData
  | unexpectedPacket
  | other (code : Nat)
deriving DecidableEq, Repr

/-- The decoded packet envelope, a tagged variant (spec sections 3 and 6,
client-to-server direction).  Its payloads are irrelevant to the loop at
src/src/lib.rs lines 134-146, which hands every packet to `Cmd::apply`
unopened. -/
inductive Packet where
  | helloPkt (h : HelloRequest)
  | queryPkt (query_id : String) (stage : Nat) (compression : Nat) (query : String)
  | dataPkt
  | cancelPkt
  | pingPkt
deriving DecidableEq, Repr

/-- One outcome of a `Connection::read_packet` call as the loop at
src/src/lib.rs lines 136-143 observes it: `Ok(Some(p))`, `Ok(None)` (clean
end of stream) or `Err(e)`. -/
inductive ReadResult where
  | packet (p : Packet)
  | closed
  | failed (e : Err)
deriving DecidableEq, Repr

/-- An event of the loop's observable behaviour: a completed
`read_packet` call, or a completed dispatch (`Cmd::create` followed by
`Cmd::apply`, backend callback and its writes included) of the named
packet. -/
inductive Ev where
  | read (r : ReadResult)
  | dispatched (p : Packet)
deriving DecidableEq, Repr

/-- How the session loop terminates in the model: `ok` is `return Ok(())`,
`err e` is `?`-propagation of `e`, `pending` means the modelled stream ran
out of events while the loop was still awaiting `read_packet`. -/
inductive Outcome where
  | ok
  | err (e : Err)
  | pending
deriving DecidableEq, Repr

/-- The dispatch step as the loop sees it: `Cmd::create(packet)` then
`cmd.apply(&mut connection, &mut ctx)`.  The `cmd` module is absent from
the visible source, so dispatch is an abstract function from the packet and
context to an updated context plus `Ok(())` (`none`) or `Err(e)`
(`some e`). -/
def ApplyFn : Type :=
  Packet → CHContext → CHContext × Option Err

/-- Embeds the `loop` of `ClickHouseServer::run` (src/src/lib.rs lines
134-146), driven by the list of results successive `read_packet` calls
yield.  The single-branch `tokio::select!` at lines 136-138 is an await of
`read_packet`.  Besides the outcome it returns the trace of read and
dispatch events in the order the loop performs them. -/
def runLoop (applyCmd : ApplyFn) :
    List ReadResult → CHContext → Outcome × List Ev
  | [], _ => (Outcome.pending, [])
  | ReadResult.closed :: _, _ =>
      (Outcome.ok, [Ev.read ReadResult.closed])
  | ReadResult.failed e :: _, _ =>
      (Outcome.err e, [Ev.read (ReadResult.failed e)])
  | ReadResult.packet p :: rest, ctx =>
      match applyCmd p ctx with
      | (_, some e) =>
          (Outcome.err e, [Ev.read (ReadResult.packet p), Ev.dispatched p])
      | (ctx2, none) =>
          let next := runLoop applyCmd rest ctx2
          (next.1, Ev.read (ReadResult.packet p) :: Ev.dispatched p :: next.2)

/-- Embeds `ClickHouseServer::run` (src/src/lib.rs lines 128-148): first
`session.timezone().parse()?` (the chrono-tz parser is external, so it is a
function argument returning `none` on failure), then
`CHContext::new(QueryState::default())`, then the packet loop.  The parsed
timezone value itself is only stored in the `Connection`, which the loop
model treats abstractly, so its type is immaterial. -/
def run (parseTz : String → Option String) (applyCmd : ApplyFn)
    (session : ClickHouseSession) (stream : List ReadResult) :
    Outcome × List Ev :=
  match parseTz session.timezone with
  | none => (Outcome.err Err.timezoneParse, [])
  | some _ => runLoop applyCmd stream (CHContext.new QueryState.defaultState)

/-- Checks that a trace is a strict read/dispatch alternation: every read
that yields a packet is immediately followed by the completed dispatch of
that same packet before any further event, and a read yielding end-of-stream
or an error is the last event. -/
def seqTrace : List Ev → Bool
  | [] => true
  | [Ev.read ReadResult.closed] => true
  | [Ev.read (ReadResult.failed _)] => true
  | Ev.read (ReadResult.packet p) :: Ev.dispatched q :: rest =>
      p == q && seqTrace rest
  | _ => false

/- ## Binary codec, modelled from the spec (section 4.1).  The `binary`
module is declared at src/src/lib.rs line 17 but its file is not part of the
visible source, so every definition below follows the spec's wording.
Bytes are naturals below 256; byte strings are lists of bytes. -/

/-- Modelled from the spec: `write_varint` (binary module absent) — unsigned
LEB128: low seven bits per byte, high bit set on every byte but the last. -/
def writeVarint (n : Nat) : List Nat :=
  if n < 128 then [n] else (n % 128 + 128) :: writeVarint (n / 128)
termination_by n
decreasing_by exact Nat.div_lt_self (by omega) (by omega)

/-- Modelled from the spec: the worker of `read_varint` — `cnt` bytes were
already consumed; reading an eleventh byte, or running out of bytes before a
terminating byte, fails with `MalformedPacket` (the 64-bit overflow
guard). -/
def readVarintAux : List Nat → Nat → Nat → Nat → Except Err (Nat × List Nat)
  | [], _, _, _ => Except.error Err.malformedPacket
  | b :: rest, shift, acc, cnt =>
      if 10 ≤ cnt then Except.error Err.malformedPacket
      else if b < 128 then Except.ok (acc + b * 2 ^ shift, rest)
      else readVarintAux rest (shift + 7) (acc + b % 128 * 2 ^ shift) (cnt + 1)

/-- Modelled from the spec: `read_varint` (binary module absent). -/
def readVarint (bs : List Nat) : Except Err (Nat × List Nat) :=
  readVarintAux bs 0 0 0

/-- Modelled from the spec: `write_string` — varint length prefix followed
by exactly that many bytes. -/
def writeString (s : List Nat) : List Nat :=
  writeVarint s.length ++ s

/-- Modelled from the spec: `read_string` — fails with
`ProtocolLimitExceeded` when the declared length exceeds the configured
maximum `maxLen`, and with `MalformedPacket` when fewer bytes are available
than declared. -/
def readString (maxLen : Nat) (bs : List Nat) : Except Err (List Nat × List Nat) :=
  match readVarint bs with
  | Except.error e => Except.error e
  | Except.ok (len, rest) =>
      if maxLen < len then Except.error Err.protocolLimitExceeded
      else if rest.length < len then Except.error Err.malformedPacket
      else Except.ok (rest.take len, rest.drop len)

/-- Modelled from the spec: fixed-width 64-bit unsigned integer, written
little-endian (section 4.1, numeric semantics). -/
def writeU64LE (n : Nat) : List Nat :=
  [n % 256, n / 256 % 256, n / 65536 % 256, n / 16777216 % 256,
   n / 4294967296 % 256, n / 1099511627776 % 256,
   n / 281474976710656 % 256, n / 72057594037927936 % 256]

/-- Modelled from the spec: fixed-width 64-bit little-endian reader; fails
with `MalformedPacket` when fewer than eight bytes remain. -/
def readU64LE : List Nat → Except Err (Nat × List Nat)
  | b0 :: b1 :: b2 :: b3 :: b4 :: b5 :: b6 :: b7 :: rest =>
      Except.ok (b0 + b1 * 256 + b2 * 65536 + b3 * 16777216 +
        b4 * 4294967296 + b5 * 1099511627776 + b6 * 281474976710656 +
        b7 * 72057594037927936, rest)
  | _ => Except.error Err.malformedPacket

/-- Modelled from the spec: the typed values of one column, for two entries
of the per-type codec table (spec section 1 treats the full table as
pluggable under the generic framing contract). -/
inductive ColumnData where
  | uint64 (vals : List Nat)
  | strvals (vals : List (List Nat))
deriving DecidableEq, Repr

/-- Modelled from the spec: a `Column` — name, declared type tag (derived
from the data below), ordered values. -/
structure Column where
  name : List Nat
  data : ColumnData
deriving DecidableEq, Repr

/-- Modelled from the spec: a `Block` — ordered sequence of named columns
plus the row count written on the wire. -/
structure Block where
  columns : List Column
  rows : Nat
deriving DecidableEq, Repr

/-- The ASCII bytes of the type tag "UInt64". -/
def uint64Tag : List Nat := [85, 73, 110, 116, 54, 52]

/-- The ASCII bytes of the type tag "String". -/
def stringTag : List Nat := [83, 116, 114, 105, 110, 103]

/-- The type tag a column's data is written under. -/
def typeTag : ColumnData → List Nat
  | ColumnData.uint64 _ => uint64Tag
  | ColumnData.strvals _ => stringTag

/-- Modelled from the spec: the value payload of a `UInt64` column. -/
def encodeU64s : List Nat → List Nat
  | [] => []
  | v :: vs => writeU64LE v ++ encodeU64s vs

/-- Modelled from the spec: the value payload of a `String` column. -/
def encodeStrs : List (List Nat) → List Nat
  | [] => []
  | s :: ss => writeString s ++ encodeStrs ss

/-- Modelled from the spec: value payload dispatch on the column's type. -/
def encodeColumnData : ColumnData → List Nat
  | ColumnData.uint64 vs => encodeU64s vs
  | ColumnData.strvals ss => encodeStrs ss

/-- Modelled from the spec: one column on the wire — name (string), type
tag (string), then the type-specific value encoding. -/
def encodeColumn (c : Column) : List Nat :=
  writeString c.name ++ writeString (typeTag c.data) ++ encodeColumnData c.data

/-- Modelled from the spec: the columns of a block, in order. -/
def encodeColumns : List Column → List Nat
  | [] => []
  | c :: cs => encodeColumn c ++ encodeColumns cs

/-- Modelled from the spec: `encode_block` — column count (varint), row
count (varint), then each column. -/
def encodeBlock (b : Block) : List Nat :=
  writeVarint b.columns.length ++ writeVarint b.rows ++ encodeColumns b.columns

/-- Modelled from the spec: reads `k` fixed-width 64-bit values. -/
def decodeU64s : Nat → List Nat → Except Err (List Nat × List Nat)
  | 0, bs => Except.ok ([], bs)
  | k + 1, bs =>
      match readU64LE bs with
      | Except.error e => Except.error e
      | Except.ok (v, bs1) =>
          match decodeU64s k bs1 with
          | Except.error e => Except.error e
          | Except.ok (vs, bs2) => Except.ok (v :: vs, bs2)

/-- Modelled from the spec: reads `k` length-prefixed strings. -/
def decodeStrs (maxLen : Nat) : Nat → List Nat → Except Err (List (List Nat) × List Nat)
  | 0, bs => Except.ok ([], bs)
  | k + 1, bs =>
      match readString maxLen bs with
      | Except.error e => Except.error e
      | Except.ok (s, bs1) =>
          match decodeStrs maxLen k bs1 with
          | Except.error e => Except.error e
          | Except.ok (ss, bs2) => Except.ok (s :: ss, bs2)

/-- Modelled from the spec: one column off the wire — name, type tag, then
the per-type value decoding keyed by the tag; an unknown tag fails with
`UnsupportedType`, never a panic. -/
def decodeColumn (maxLen rows : Nat) (bs : List Nat) : Except Err (Column × List Nat) :=
  match readString maxLen bs with
  | Except.error e => Except.error e
  | Except.ok (name, bs1) =>
      match readString maxLen bs1 with
      | Except.error e => Except.error e
      | Except.ok (tag, bs2) =>
          if tag = uint64Tag then
            match decodeU64s rows bs2 with
            | Except.error e => Except.error e
            | Except.ok (vs, bs3) =>
                Except.ok ({ name := name, data := ColumnData.uint64 vs }, bs3)
          else if tag = stringTag then
            match decodeStrs maxLen rows bs2 with
            | Except.error e => Except.error e
            | Except.ok (ss, bs3) =>
                Except.ok ({ name := name, data := ColumnData.strvals ss }, bs3)
          else Except.error Err.unsupportedType

/-- Modelled from the spec: reads `k` columns, each of `rows` rows. -/
def decodeColumns (maxLen rows : Nat) : Nat → List Nat → Except Err (List Column × List Nat)
  | 0, bs => Except.ok ([], bs)
  | k + 1, bs =>
      match decodeColumn maxLen rows bs with
      | Except.error e => Except.error e
      | Except.ok (c, bs1) =>
          match decodeColumns maxLen rows k bs1 with
          | Except.error e => Except.error e
          | Except.ok (cs, bs2) => Except.ok (c :: cs, bs2)

/-- Modelled from the spec: `decode_block` — column count, row count, then
the columns. -/
def decodeBlock (maxLen : Nat) (bs : List Nat) : Except Err (Block × List Nat) :=
  match readVarint bs with
  | Except.error e => Except.error e
  | Except.ok (ncols, bs1) =>
      match readVarint bs1 with
      | Except.error e => Except.error e
      | Except.ok (rows, bs2) =>
          match decodeColumns maxLen rows ncols bs2 with
          | Except.error e => Except.error e
          | Except.ok (cols, bs3) => Except.ok ({ columns := cols, rows := rows }, bs3)

/-- A byte string within the configured string limit and the varint range. -/
def validStr (maxLen : Nat) (s : List Nat) : Bool :=
  decide (s.length ≤ maxLen) && decide (s.length < 2 ^ 64)

/-- Column values well formed for a block of `rows` rows: the declared row
count matches, `UInt64` values fit in 64 bits, strings fit the limit. -/
def validColumnData (maxLen rows : Nat) : ColumnData → Bool
  | ColumnData.uint64 vs =>
      decide (vs.length = rows) && vs.all (fun v => decide (v < 2 ^ 64))
  | ColumnData.strvals ss =>
      decide (ss.length = rows) && ss.all (validStr maxLen)

/-- A well-formed column for a block of `rows` rows. -/
def validColumn (maxLen rows : Nat) (c : Column) : Bool :=
  validStr maxLen c.name && validColumnData maxLen rows c.data

/-- A valid block: counts within varint range, a string limit large enough
to carry the six-byte type tags, every column well formed. -/
def validBlock (maxLen : Nat) (b : Block) : Bool :=
  decide (b.columns.length < 2 ^ 64) && decide (b.rows < 2 ^ 64) &&
    decide (6 ≤ maxLen) && b.columns.all (validColumn maxLen b.rows)

end ClickHouse

namespace ClickHouse

/- ## Theorems about QueryState reset (claims C1, C8, C9) -/

/-- C1 counterexample: the claim "after `QueryState::reset()` every field
other than `query_id` and `query` equals its zero-value default" fails at
the concrete state whose `compression` field is `1`: `reset` does not assign
`compression`, so it stays `1`, not `0`. -/
theorem reset_not_all_defaults_cex :
    (QueryState.reset
      { query_id := ""
        stage := 0
        compression := 1
        query := ""
        is_cancelled := false
        is_connection_closed := false
        is_empty := false
        sent_all_data := false }).compression ≠ 0 := by
  decide

/-- C1 (amended): after `QueryState::reset()` the fields `stage`,
`is_cancelled`, `is_connection_closed`, `is_empty` and `sent_all_data` equal
their zero-value defaults, while `query_id`, `query` and also `compression`
are left unchanged. -/
theorem reset_amended_defaults (s : QueryState) :
    (QueryState.reset s).stage = 0 ∧
    (QueryState.reset s).is_cancelled = false ∧
    (QueryState.reset s).is_connection_closed = false ∧
    (QueryState.reset s).is_empty = false ∧
    (QueryState.reset s).sent_all_data = false ∧
    (QueryState.reset s).compression = s.compression ∧
    (QueryState.reset s).query_id = s.query_id ∧
    (QueryState.reset s).query = s.query := by
  simp [QueryState.reset]

/-- C8: `QueryState::reset` is idempotent: applying it twice yields the same
state as applying it once. -/
theorem reset_idempotent (s : QueryState) :
    QueryState.reset (QueryState.reset s) = QueryState.reset s := by
  simp [QueryState.reset]

/-- C9: `QueryState::reset` writes exactly the fields `stage`,
`is_cancelled`, `is_connection_closed`, `is_empty`, `sent_all_data` (to
their constants) and leaves `query_id`, `query` and `compression` exactly
as they were. -/
theorem reset_frame (s : QueryState) :
    QueryState.reset s =
      { query_id := s.query_id
        stage := 0
        compression := s.compression
        query := s.query
        is_cancelled := false
        is_connection_closed := false
        is_empty := false
        sent_all_data := false } := by
  simp [QueryState.reset]

/- ## Theorem about the handshake revision (claim C2) -/

/-- C2: the claim says a backend that keeps the trait defaults counts as
declaring no explicit version, so the server should echo the client's
revision.  The code cannot do this: the trait default is the concrete value
`54428`, and the writer sends it.  Evaluated at the failing input (client
revision `54429`, default backend), the reported revision is `54428`, not
`54429`. -/
theorem hello_revision_not_echoed :
    reportedServerRevision defaultSession 54429 = 54428 ∧
    defaultSession.dbms_tcp_protocol_version = 54428 ∧
    (54428 : Nat) ≠ 54429 := by
  refine ⟨rfl, rfl, by decide⟩

/- ## Theorems about the connection loop (claims C3, C4, C5, C6, C10) -/

/-- C3: when the backend's timezone string does not parse,
`ClickHouseServer::run` returns the error at once: the trace is empty, so no
packet was read and no command was dispatched, whatever the stream holds. -/
theorem run_timezone_parse_error (parseTz : String → Option String)
    (applyCmd : ApplyFn) (session : ClickHouseSession)
    (stream : List ReadResult)
    (h : parseTz session.timezone = none) :
    run parseTz applyCmd session stream = (Outcome.err Err.timezoneParse, []) := by
  simp [run, h]

/-- Witness for `run_timezone_parse_error`: a parser that rejects every
string makes `run` fail before touching a nonempty stream. -/
theorem run_timezone_parse_error_witness :
    run (fun _ => none) (fun _ c => (c, none)) defaultSession
        [ReadResult.packet Packet.pingPkt] =
      (Outcome.err Err.timezoneParse, []) :=
  run_timezone_parse_error (fun _ => none) (fun _ c => (c, none))
    defaultSession [ReadResult.packet Packet.pingPkt] rfl

/-- C4: whenever `read_packet` yields `None` (clean end of stream), the loop
returns `Ok(())` immediately: outcome `ok` and no dispatch event after the
read, for every dispatch function, every remaining stream and every
context. -/
theorem run_loop_clean_eos (applyCmd : ApplyFn) (rest : List ReadResult)
    (ctx : CHContext) :
    runLoop applyCmd (ReadResult.closed :: rest) ctx =
      (Outcome.ok, [Ev.read ReadResult.closed]) := by
  simp [runLoop]

/-- C5: an error from `read_packet` or from `Cmd::apply` terminates the loop
at once with that same error: no dispatch follows a failed read, and after a
failed dispatch no further read occurs — the traces end at the failure. -/
theorem run_loop_error_propagation (applyCmd : ApplyFn) (e : Err)
    (rest : List ReadResult) (ctx : CHContext) :
    (runLoop applyCmd (ReadResult.failed e :: rest) ctx =
       (Outcome.err e, [Ev.read (ReadResult.failed e)])) ∧
    (∀ p : Packet, (applyCmd p ctx).2 = some e →
       runLoop applyCmd (ReadResult.packet p :: rest) ctx =
         (Outcome.err e, [Ev.read (ReadResult.packet p), Ev.dispatched p])) := by
  constructor
  · simp [runLoop]
  · intro p hp
    rcases hac : applyCmd p ctx with ⟨ctx2, me⟩
    rw [hac] at hp
    simp at hp
    subst hp
    simp [runLoop, hac]

/-- Witness for `run_loop_error_propagation`: a dispatch function that fails
with `malformedPacket` stops the loop on the first packet even though a
second one is waiting. -/
theorem run_loop_error_propagation_witness :
    runLoop (fun _ c => (c, some Err.malformedPacket))
        [ReadResult.packet Packet.pingPkt, ReadResult.packet Packet.pingPkt]
        (CHContext.new QueryState.defaultState) =
      (Outcome.err Err.malformedPacket,
        [Ev.read (ReadResult.packet Packet.pingPkt),
         Ev.dispatched Packet.pingPkt]) :=
  (run_loop_error_propagation (fun _ c => (c, some Err.malformedPacket))
      Err.malformedPacket [ReadResult.packet Packet.pingPkt]
      (CHContext.new QueryState.defaultState)).2 Packet.pingPkt rfl

/-- C6: the loop's trace is a strict alternation: every packet read is
immediately followed by the completed dispatch of that same packet before
the next read is issued, and a terminal read ends the trace — for every
dispatch function, stream and starting context. -/
theorem run_loop_sequential (applyCmd : ApplyFn) (stream : List ReadResult)
    (ctx : CHContext) :
    seqTrace (runLoop applyCmd stream ctx).2 = true := by
  induction stream generalizing ctx with
  | nil => simp [runLoop, seqTrace]
  | cons r rest ih =>
    cases r with
    | closed => simp [runLoop, seqTrace]
    | failed e => simp [runLoop, seqTrace]
    | packet p =>
      rcases hac : applyCmd p ctx with ⟨ctx2, me⟩
      cases me with
      | some e => simp [runLoop, hac, seqTrace]
      | none => simp [runLoop, hac, seqTrace, ih]

/-- C10: `CHContext::new(QueryState::default())` is the all-zero context
(`client_revision = 0`, `hello = None`, empty strings, zero integers, false
flags), and whenever the timezone parses, `ClickHouseServer::run` enters its
packet loop with exactly that context. -/
theorem run_initial_context (parseTz : String → Option String)
    (applyCmd : ApplyFn) (session : ClickHouseSession)
    (stream : List ReadResult) (tzv : String)
    (h : parseTz session.timezone = some tzv) :
    CHContext.new QueryState.defaultState =
      { state :=
          { query_id := ""
            stage := 0
            compression := 0
            query := ""
            is_cancelled := false
            is_connection_closed := false
            is_empty := false
            sent_all_data := false }
        client_revision := 0
        hello := none } ∧
    run parseTz applyCmd session stream =
      runLoop applyCmd stream (CHContext.new QueryState.defaultState) := by
  refine ⟨rfl, ?_⟩
  simp [run, h]

/-- Witness for `run_initial_context` at a parser that accepts "UTC" and the
default session. -/
/- ## Codec round-trip lemmas (claim C7) -/

theorem writeVarint_lt {n : Nat} (h : n < 128) : writeVarint n = [n] := by
  unfold writeVarint
  simp [h]

theorem writeVarint_ge {n : Nat} (h : ¬ n < 128) :
    writeVarint n = (n % 128 + 128) :: writeVarint (n / 128) := by
  conv_lhs => unfold writeVarint
  simp [h]

theorem writeVarint_length_le :
    ∀ (k n : Nat), n < 128 ^ k → 0 < k → (writeVarint n).length ≤ k := by
  intro k
  induction k with
  | zero => intro n _ hk; omega
  | succ k ih =>
    intro n hn _
    by_cases h : n < 128
    · rw [writeVarint_lt h]
      simp
    · rw [writeVarint_ge h]
      have hk : 0 < k := by
        rcases Nat.eq_zero_or_pos k with hk0 | hk0
        · subst hk0
          simp [pow_one] at hn
          omega
        · exact hk0
      have hdiv : n / 128 < 128 ^ k := by
        rw [Nat.div_lt_iff_lt_mul (by norm_num)]
        calc n < 128 ^ (k + 1) := hn
          _ = 128 ^ k * 128 := by rw [pow_succ]
      have := ih (n / 128) hdiv hk
      simp only [List.length_cons]
      omega

theorem readVarintAux_roundtrip :
    ∀ (n shift acc cnt : Nat) (rest : List Nat),
      (writeVarint n).length + cnt ≤ 10 →
      readVarintAux (writeVarint n ++ rest) shift acc cnt =
        Except.ok (acc + n * 2 ^ shift, rest) := by
  intro n
  induction n using Nat.strong_induction_on with
  | _ n ih =>
    intro shift acc cnt rest hlen
    by_cases h : n < 128
    · rw [writeVarint_lt h] at hlen ⊢
      simp only [List.length_cons, List.length_nil] at hlen
      simp [readVarintAux, h, Nat.not_le.mpr (by omega : cnt < 10)]
    · rw [writeVarint_ge h] at hlen ⊢
      simp only [List.length_cons] at hlen
      have hcnt : ¬ 10 ≤ cnt := by omega
      have hb : ¬ n % 128 + 128 < 128 := by omega
      simp only [List.cons_append, List.append_eq, readVarintAux, if_neg hcnt,
        if_neg hb]
      have hmod : (n % 128 + 128) % 128 = n % 128 := by omega
      rw [hmod]
      have hrec := ih (n / 128) (Nat.div_lt_self (by omega) (by omega))
        (shift + 7) (acc + n % 128 * 2 ^ shift) (cnt + 1) rest (by omega)
      rw [hrec]
      have harith : acc + n % 128 * 2 ^ shift + n / 128 * 2 ^ (shift + 7) =
          acc + n * 2 ^ shift := by
        have h1 : 2 ^ (shift + 7) = 2 ^ shift * 128 := by
          rw [pow_add]
          norm_num
        have h2 : n % 128 + 128 * (n / 128) = n := Nat.mod_add_div n 128
        calc acc + n % 128 * 2 ^ shift + n / 128 * 2 ^ (shift + 7)
            = acc + (n % 128 + 128 * (n / 128)) * 2 ^ shift := by rw [h1]; ring
          _ = acc + n * 2 ^ shift := by rw [h2]
      rw [harith]

theorem readVarint_writeVarint (n : Nat) (rest : List Nat) (h : n < 2 ^ 64) :
    readVarint (writeVarint n ++ rest) = Except.ok (n, rest) := by
  have hlen : (writeVarint n).length ≤ 10 :=
    writeVarint_length_le 10 n (by calc n < 2 ^ 64 := h
                                    _ ≤ 128 ^ 10 := by norm_num) (by norm_num)
  have := readVarintAux_roundtrip n 0 0 0 rest (by omega)
  simpa [readVarint] using this

theorem readString_writeString (maxLen : Nat) (s rest : List Nat)
    (hmax : s.length ≤ maxLen) (h64 : s.length < 2 ^ 64) :
    readString maxLen (writeString s ++ rest) = Except.ok (s, rest) := by
  unfold writeString readString
  rw [List.append_assoc, readVarint_writeVarint s.length (s ++ rest) h64]
  have h1 : ¬ maxLen < s.length := Nat.not_lt.mpr hmax
  have h2 : ¬ (s ++ rest).length < s.length := by
    simp [List.length_append]
  simp [h1, h2, List.take_left, List.drop_left]

theorem readU64LE_writeU64LE (n : Nat) (rest : List Nat) (h : n < 2 ^ 64) :
    readU64LE (writeU64LE n ++ rest) = Except.ok (n, rest) := by
  unfold writeU64LE readU64LE
  simp only [List.cons_append, List.nil_append]
  congr 1
  have h64 : n < 18446744073709551616 := by
    calc n < 2 ^ 64 := h
      _ = 18446744073709551616 := by norm_num
  congr 1
  omega

theorem decodeU64s_encodeU64s (vs rest : List Nat)
    (h : ∀ v ∈ vs, v < 2 ^ 64) :
    decodeU64s vs.length (encodeU64s vs ++ rest) = Except.ok (vs, rest) := by
  induction vs with
  | nil => simp [encodeU64s, decodeU64s]
  | cons v vs ih =>
    simp only [List.length_cons, encodeU64s, List.append_assoc, decodeU64s]
    rw [readU64LE_writeU64LE v _ (h v (by simp))]
    dsimp only
    rw [ih (fun u hu => h u (by simp [hu]))]

theorem decodeStrs_encodeStrs (maxLen : Nat) (ss : List (List Nat))
    (rest : List Nat) (h : ∀ s ∈ ss, validStr maxLen s = true) :
    decodeStrs maxLen ss.length (encodeStrs ss ++ rest) = Except.ok (ss, rest) := by
  induction ss with
  | nil => simp [encodeStrs, decodeStrs]
  | cons s ss ih =>
    have hs := h s (by simp)
    simp only [validStr, Bool.and_eq_true, decide_eq_true_eq] at hs
    simp only [List.length_cons, encodeStrs, List.append_assoc, decodeStrs]
    rw [readString_writeString maxLen s _ hs.1 hs.2]
    dsimp only
    rw [ih (fun u hu => h u (by simp [hu]))]

theorem decodeColumn_encodeColumn (maxLen rows : Nat) (c : Column)
    (rest : List Nat) (htag : 6 ≤ maxLen)
    (hc : validColumn maxLen rows c = true) :
    decodeColumn maxLen rows (encodeColumn c ++ rest) = Except.ok (c, rest) := by
  obtain ⟨name, data⟩ := c
  simp only [validColumn, Bool.and_eq_true] at hc
  obtain ⟨hname, hdata⟩ := hc
  simp only [validStr, Bool.and_eq_true, decide_eq_true_eq] at hname
  unfold encodeColumn decodeColumn
  dsimp only
  simp only [List.append_assoc]
  rw [readString_writeString maxLen name _ hname.1 hname.2]
  dsimp only
  cases data with
  | uint64 vs =>
    simp only [validColumnData, Bool.and_eq_true, decide_eq_true_eq,
      List.all_eq_true] at hdata
    simp only [typeTag, encodeColumnData]
    rw [readString_writeString maxLen uint64Tag _
      (by simp only [uint64Tag, List.length_cons, List.length_nil]; omega)
      (by norm_num [uint64Tag])]
    dsimp only
    rw [if_pos rfl]
    have hlen : rows = vs.length := hdata.1.symm
    subst hlen
    rw [decodeU64s_encodeU64s vs rest (fun v hv => hdata.2 v hv)]
  | strvals ss =>
    simp only [validColumnData, Bool.and_eq_true, decide_eq_true_eq,
      List.all_eq_true] at hdata
    simp only [typeTag, encodeColumnData]
    rw [readString_writeString maxLen stringTag _
      (by simp only [stringTag, List.length_cons, List.length_nil]; omega)
      (by norm_num [stringTag])]
    dsimp only
    rw [if_neg (by decide), if_pos rfl]
    have hlen : rows = ss.length := hdata.1.symm
    subst hlen
    rw [decodeStrs_encodeStrs maxLen ss rest (fun s hs => hdata.2 s hs)]

theorem decodeColumns_encodeColumns (maxLen rows : Nat) (cs : List Column)
    (rest : List Nat) (htag : 6 ≤ maxLen)
    (h : ∀ c ∈ cs, validColumn maxLen rows c = true) :
    decodeColumns maxLen rows cs.length (encodeColumns cs ++ rest) =
      Except.ok (cs, rest) := by
  induction cs with
  | nil => simp [encodeColumns, decodeColumns]
  | cons c cs ih =>
    simp only [List.length_cons, encodeColumns, List.append_assoc, decodeColumns]
    rw [decodeColumn_encodeColumn maxLen rows c _ htag (h c (by simp))]
    dsimp only
    rw [ih (fun u hu => h u (by simp [hu]))]

theorem decodeBlock_encodeBlock (maxLen : Nat) (b : Block) (rest : List Nat)
    (h : validBlock maxLen b = true) :
    decodeBlock maxLen (encodeBlock b ++ rest) = Except.ok (b, rest) := by
  obtain ⟨cols, rows⟩ := b
  simp only [validBlock, Bool.and_eq_true, decide_eq_true_eq,
    List.all_eq_true] at h
  unfold encodeBlock decodeBlock
  dsimp only
  simp only [List.append_assoc]
  rw [readVarint_writeVarint cols.length _ h.1.1.1]
  dsimp only
  rw [readVarint_writeVarint rows _ h.1.1.2]
  dsimp only
  rw [decodeColumns_encodeColumns maxLen rows cols rest h.1.2
    (fun c hc => h.2 c hc)]

/-- C7: the binary codec round-trips: decoding the encoding of a varint, a
fixed-width 64-bit integer or a length-prefixed string (within the
configured limit) yields the value back with the trailing bytes untouched,
and decoding the encoding of any valid block yields that block exactly. -/
theorem codec_roundtrip :
    (∀ (n : Nat) (rest : List Nat), n < 2 ^ 64 →
        readVarint (writeVarint n ++ rest) = Except.ok (n, rest)) ∧
    (∀ (n : Nat) (rest : List Nat), n < 2 ^ 64 →
        readU64LE (writeU64LE n ++ rest) = Except.ok (n, rest)) ∧
    (∀ (maxLen : Nat) (s rest : List Nat), s.length ≤ maxLen →
        s.length < 2 ^ 64 →
        readString maxLen (writeString s ++ rest) = Except.ok (s, rest)) ∧
    (∀ (maxLen : Nat) (b : Block), validBlock maxLen b = true →
        decodeBlock maxLen (encodeBlock b) = Except.ok (b, [])) := by
  refine ⟨fun n rest h => readVarint_writeVarint n rest h,
    fun n rest h => readU64LE_writeU64LE n rest h,
    fun maxLen s rest h1 h2 => readString_writeString maxLen s rest h1 h2,
    fun maxLen b h => ?_⟩
  have := decodeBlock_encodeBlock maxLen b [] h
  simpa using this

/-- Witness for `codec_roundtrip`: concrete round trips — the two-byte
varint 300, the integer 5, the string [1,2,3] under limit 10, and a
one-column one-row `UInt64` block. -/
theorem codec_roundtrip_witness :
    readVarint (writeVarint 300 ++ [7]) = Except.ok (300, [7]) ∧
    readU64LE (writeU64LE 5 ++ [9]) = Except.ok (5, [9]) ∧
    readString 10 (writeString [1, 2, 3] ++ [9]) = Except.ok ([1, 2, 3], [9]) ∧
    decodeBlock 64
        (encodeBlock
          { columns := [{ name := [97], data := ColumnData.uint64 [5] }]
            rows := 1 }) =
      Except.ok
        ({ columns := [{ name := [97], data := ColumnData.uint64 [5] }]
           rows := 1 }, []) :=
  ⟨codec_roundtrip.1 300 [7] (by norm_num),
   codec_roundtrip.2.1 5 [9] (by norm_num),
   codec_roundtrip.2.2.1 10 [1, 2, 3] [9] (by norm_num) (by norm_num),
   codec_roundtrip.2.2.2 64
     { columns := [{ name := [97], data := ColumnData.uint64 [5] }]
       rows := 1 } (by decide)⟩

theorem run_initial_context_witness :
    CHContext.new QueryState.defaultState =
      { state :=
          { query_id := ""
            stage := 0
            compression := 0
            query := ""
            is_cancelled := false
            is_connection_closed := false
            is_empty := false
            sent_all_data := false }
        client_revision := 0
        hello := none } ∧
    run (fun s => some s) (fun _ c => (c, none)) defaultSession [] =
      runLoop (fun _ c => (c, none)) [] (CHContext.new QueryState.defaultState) :=
  run_initial_context (fun s => some s) (fun _ c => (c, none)) defaultSession []
    "UTC" rfl

end ClickHouse
